import Mathlib

/-!
Verification of the hybrid-cloud service delegation layer of the sentry
repository (file src/sentry/services/hybrid_cloud/init).

The Python class DelegatedBySiloMode holds an immutable mapping from silo
mode to zero-argument constructors and a mutable dict from silo mode to a
backing instance or Python None.  Attribute access is intercepted and
forwarded to the backing instance for the current silo mode, lazily
constructing and caching it.  We embed the state of one dispatcher as a
World: the singleton dict (a partial map whose entries can themselves hold
Python None) plus an allocation counter modelling Python object identity
(each constructor invocation yields an object with a fresh identity).

Instances carry a truthiness flag because the Python code tests cached
entries with walrus-truthiness rather than with a None check.
-/

/-- A backing service instance: an object identity plus its Python
truthiness (a Python object is truthy unless its class overrides bool or
len, which an implementation is free to do). -/
structure Inst where
  id : Nat
  truthy : Bool
deriving DecidableEq

/-- The silo modes of the sentry deployment model. -/
inductive SiloMode where
  | MONOLITH
  | CONTROL
  | REGION
deriving DecidableEq

/-- The singleton dict of a dispatcher: none means the key is absent,
some none means the key maps to Python None, some (some i) means the key
maps to the instance i. -/
abbrev Singletons := SiloMode → Option (Option Inst)

/-- The immutable constructor mapping.  A constructor is modelled by the
truthiness of the instance it produces at a given fresh identity: invoking
it at allocation counter n yields the instance with id n. -/
abbrev Ctors := SiloMode → Option (Nat → Bool)

/-- The mutable state of one dispatcher: its singleton dict and the
allocation counter supplying fresh object identities. -/
structure World where
  st : Singletons
  ctr : Nat

/-- Pointwise update of the singleton dict, modelling a Python dict key
assignment. -/
def updF (st : Singletons) (m : SiloMode) (v : Option (Option Inst)) : Singletons :=
  fun x => if x = m then v else st x

/-- Python dict.get with default None: absent key and key mapped to None
are both observed as None. -/
def dget (st : Singletons) (m : SiloMode) : Option Inst :=
  (st m).getD none

/-- Python truthiness of a value of type ServiceInterface or None. -/
def truthyVal : Option Inst → Bool
  | none => false
  | some i => i.truthy

/-- All silo modes, used to model iteration over dict values. -/
def allModes : List SiloMode := [SiloMode.MONOLITH, SiloMode.CONTROL, SiloMode.REGION]

/-- DelegatedBySiloMode.close: under the lock, collect the instances to
close and clear the slots, and only afterwards invoke close on each
collected instance.  The returned list holds the instances whose close
method is invoked, in order; the returned World is fully determined before
any of those invocations runs, which is how the code keeps the dict
consistent even when a close call raises.
With a mode argument, the existing entry is fetched with dict.get and
tested by truthiness, and the slot is set to Python None.  With no mode,
every dict value that is not None is collected (even a falsy instance)
and the dict is replaced by an empty one. -/
def close_op (w : World) (mode : Option SiloMode) : World × List Inst :=
  match mode with
  | none =>
      (⟨fun _ => none, w.ctr⟩, allModes.filterMap (fun m => (w.st m).getD none))
  | some m =>
      let existing := dget w.st m
      let toClose := match existing with
        | some i => if i.truthy then [i] else []
        | none => []
      (⟨updF w.st m (some none), w.ctr⟩, toClose)

/-- Events observable in a dispatch step: a constructor invocation for a
mode, a forwarded call, a close invocation on an instance, and the
KeyError raised when no implementation exists for the current mode. -/
inductive Event where
  | constructed (m : SiloMode) (i : Inst)
  | forwarded (i : Inst)
  | closedEv (i : Inst)
  | keyError
deriving DecidableEq

/-- Result of one intercepted attribute access: the instance the call is
forwarded to (none when the KeyError is raised), the dispatcher state
afterwards, and the events in order. -/
structure StepOut where
  handler : Option Inst
  world : World
  events : List Event

/-- The constructor branch of getattr: if a constructor is registered for
the current mode, the code first runs the defensive self.close on that
mode, then invokes the constructor, caches the fresh instance and forwards
to it; otherwise it raises KeyError without touching the dict. -/
def construct_path (ctors : Ctors) (w : World) (cur : SiloMode) : StepOut :=
  match ctors cur with
  | some con =>
      let p := close_op w (some cur)
      let inst : Inst := ⟨p.1.ctr, con p.1.ctr⟩
      ⟨some inst,
       ⟨updF p.1.st cur (some (some inst)), p.1.ctr + 1⟩,
       p.2.map Event.closedEv ++ [Event.constructed cur inst, Event.forwarded inst]⟩
  | none => ⟨none, w, [Event.keyError]⟩

/-- DelegatedBySiloMode.getattr: reads the entry for the current mode with
dict.get default None and tests it with walrus-truthiness; a truthy cached
instance handles the call with no state change, anything else falls
through to the constructor branch. -/
def getattr_step (ctors : Ctors) (w : World) (cur : SiloMode) : StepOut :=
  match dget w.st cur with
  | some impl =>
      if impl.truthy then ⟨some impl, w, [Event.forwarded impl]⟩
      else construct_path ctors w cur
  | none => construct_path ctors w cur

/-- DelegatedBySiloMode.init: stores the constructor mapping, creates an
empty singleton dict and invokes no constructor (the empty event list
records that nothing is constructed). -/
def dbsInit : World × List Event := (⟨fun _ => none, 0⟩, [])

/-- Entry of the with_replacement context manager: under the lock, read
the previous entry with dict.get default None and overwrite the slot with
the supplied service (which may be Python None).  Nothing is closed here.
Returns the new state and the saved previous value. -/
def with_replacement_enter (w : World) (service : Option Inst) (m : SiloMode) :
    World × Option Inst :=
  (⟨updF w.st m (some service), w.ctr⟩, dget w.st m)

/-- Exit of the with_replacement context manager, run in a finally block
and hence on every exit path including an exception raised in the body:
under the lock, self.close on the mode (closing whatever currently
occupies the slot) and then restore the saved previous value. -/
def with_replacement_exit (w : World) (prev : Option Inst) (m : SiloMode) :
    World × List Inst :=
  let p := close_op w (some m)
  (⟨updF p.1.st m (some prev), p.1.ctr⟩, p.2)

/-- A whole with_replacement scope around a body transforming the state;
exit runs also when the body raises, because it sits in a finally block,
so the same composition models both the normal and the raising path. -/
def with_replacement_run (w : World) (service : Option Inst) (m : SiloMode)
    (body : World → World × List Inst) : World × List Inst :=
  let e := with_replacement_enter w service m
  let b := body e.1
  let x := with_replacement_exit b.1 e.2 m
  (x.1, b.2 ++ x.2)

/-!
Test-stub synthesis (CreateStubFromBase).

The ambient silo mode and the applied authentication context live in
scoped, stack-disciplined process state.  The SiloMode registry itself is
an external collaborator of this file of the repository (module
sentry.silo, not part of the delegation layer source), so its two context
managers are modelled from the spec: a scoped acquisition sets a mode and
restores the prior one on exit, also when the body raises.
-/

/-- The stack of scoped silo-mode overrides; the current mode is the top,
and MONOLITH is the mode of a process with no override installed. -/
abbrev ModeStack := List SiloMode

/-- Modelled from the spec: SiloMode.get_current_mode of the external
SiloMode registry returns the innermost scoped mode, or the monolith
default when none is installed. -/
def get_current_mode (s : ModeStack) : SiloMode :=
  s.headD SiloMode.MONOLITH

/-- Modelled from the spec: SiloMode.enter_single_process_silo_context is
a scoped acquisition installing the given mode; exiting the scope restores
the prior mode. -/
def enter_scoped_mode (m : SiloMode) (s : ModeStack) : ModeStack :=
  m :: s

/-- Modelled from the spec: leaving any scoped acquisition pops the
innermost override, restoring the mode active before it. -/
def exit_scoped_mode (s : ModeStack) : ModeStack :=
  s.tail

/-- Modelled from the spec: SiloMode.exit_single_process_silo_context is a
scoped acquisition that temporarily leaves the current silo context,
so the neutral monolith mode is observed until the scope exits. -/
def exit_silo_context (s : ModeStack) : ModeStack :=
  SiloMode.MONOLITH :: s

/-- Modelled from the spec: the authentication-context collaborator is a
value type with a well-defined default empty instance; applied_to_request
is a scoped acquisition. -/
structure AuthenticationContext where
  principal : Option Nat
deriving DecidableEq

/-- The default empty authentication context. -/
def defaultAuth : AuthenticationContext := ⟨none⟩

/-- The scoped process state a synthesized stub call runs in: the silo
mode stack, the stack of applied authentication contexts, and the log of
test-callback invocations (the thread-local hc_test_stub.cb hook). -/
structure StubState where
  modes : ModeStack
  auths : List AuthenticationContext
  cbLog : List String

/-- One method wrapper produced by CreateStubFromBase, invoked while some
ambient state is active.  Following the source order: enter the
exit_single_process_silo_context scope; invoke the test callback if one is
registered (observability only); compute the effective authentication
context from the auth_context call argument, defaulting to an empty one;
enter the applied_to_request scope and the target-mode scope; invoke the
backing method, which observes the current mode and the applied context;
then unwind the scopes in reverse order, also when the backing call
raises, and hand the result or error back unchanged.  The backing method
is a function from the observed mode and context to a result or an
error.  Returns the outcome, the final state, and the mode the backing
implementation observed. -/
def stub_method_call (target : SiloMode) (hasCb : Bool)
    (backing : SiloMode → AuthenticationContext → Except Nat Nat)
    (argAuth : Option AuthenticationContext) (methodName : String)
    (s : StubState) : Except Nat Nat × StubState × SiloMode :=
  let s1 : StubState := { s with modes := exit_silo_context s.modes }
  let s2 : StubState :=
    if hasCb then { s1 with cbLog := s1.cbLog ++ [methodName] } else s1
  let auth := argAuth.getD defaultAuth
  let s3 : StubState := { s2 with auths := auth :: s2.auths }
  let s4 : StubState := { s3 with modes := enter_scoped_mode target s3.modes }
  let observed := get_current_mode s4.modes
  let out := backing observed (s4.auths.headD defaultAuth)
  let s5 : StubState := { s4 with modes := exit_scoped_mode s4.modes }
  let s6 : StubState := { s5 with auths := s5.auths.tail }
  let s7 : StubState := { s6 with modes := exit_scoped_mode s6.modes }
  (out, s7, observed)

/-- A synthesized stub instance holds exactly one field, the backing
service it was constructed from. -/
structure StubInst where
  backing_service : Inst

/-- The close method installed on every synthesized stub forwards to the
close method of the backing instance; the returned event list records the
close invocations it performs. -/
def stub_close (st : StubInst) : List Event :=
  [Event.closedEv st.backing_service]

/-!
Class introspection for CreateStubFromBase.

The function receives a concrete backing class and reads its first parent
class (base dunder-bases index zero), then enumerates dir of that parent
and keeps the names whose attribute carries the isabstractmethod marker.
We model a class by its introspection surface: its name, the dir listing,
and the abstractness of each attribute.
-/

/-- The introspection surface of a Python class: its name, the names dir
reports (each once, as dir deduplicates), and which of those attributes
are marked abstract. -/
structure ClsInfo where
  clsName : String
  dirNames : List String
  isAbstract : String → Bool

/-- A concrete backing class as CreateStubFromBase consumes it: the only
part the function reads is its first parent class. -/
structure ConcreteClass where
  firstBase : ClsInfo

/-- The abstract capability set of a class: the dir names whose attribute
carries the isabstractmethod marker. -/
def abstractMethods (c : ClsInfo) : List String :=
  c.dirNames.filter c.isAbstract

/-- The kinds of method a synthesized stub class carries: a forwarding
wrapper for a named abstract operation running in a target mode, the
close forwarder, and the constructor storing the backing instance. -/
inductive StubMethod where
  | wrapperFor (methodName : String) (target : SiloMode)
  | closeForward
  | initBacking
deriving DecidableEq

/-- A synthesized stub class: its name, its single parent class, and its
method dict. -/
structure StubClass where
  stubName : String
  parentCls : ClsInfo
  methodsMap : String → Option StubMethod

/-- CreateStubFromBase: take the first parent of the given concrete class,
build a method dict holding a forwarding wrapper for every name of the
parent dir listing marked abstract, then overwrite the close and the
constructor entries with the forwarder and the backing-storing
constructor, and create a class named Stub plus the parent name deriving
from that parent.  The if-chain mirrors the final dict: the constructor
and close assignments come last in the source and shadow any wrapper. -/
def CreateStubFromBase (base : ConcreteClass) (target_mode : SiloMode) : StubClass :=
  let S := base.firstBase
  { stubName := "Stub" ++ S.clsName
    parentCls := S
    methodsMap := fun n =>
      if n = "__init__" then some StubMethod.initBacking
      else if n = "close" then some StubMethod.closeForward
      else if n ∈ abstractMethods S then some (StubMethod.wrapperFor n target_mode)
      else none }

/-!
Helper lemmas shared by the claim theorems.
-/

/-- Reading back the slot just written. -/
lemma updF_self (st : Singletons) (m : SiloMode) (v : Option (Option Inst)) :
    updF st m v m = v := by
  simp [updF]

/-- A write to one slot leaves every other slot unchanged. -/
lemma updF_other (st : Singletons) {m x : SiloMode} (v : Option (Option Inst))
    (h : x ≠ m) : updF st m v x = st x := by
  simp [updF, h]

/-- A truthy cached instance handles the call with no state change, no
construction and no close. -/
lemma getattr_cached (ctors : Ctors) (w : World) (m : SiloMode) (i : Inst)
    (hc : dget w.st m = some i) (ht : i.truthy = true) :
    getattr_step ctors w m = ⟨some i, w, [Event.forwarded i]⟩ := by
  unfold getattr_step
  rw [hc]
  simp [ht]

/-- An empty or Python-None slot sends the call to the constructor branch. -/
lemma getattr_empty (ctors : Ctors) (w : World) (m : SiloMode)
    (hc : dget w.st m = none) :
    getattr_step ctors w m = construct_path ctors w m := by
  unfold getattr_step
  rw [hc]

/-- A falsy cached instance also sends the call to the constructor branch. -/
lemma getattr_falsy (ctors : Ctors) (w : World) (m : SiloMode) (i : Inst)
    (hc : dget w.st m = some i) (ht : i.truthy = false) :
    getattr_step ctors w m = construct_path ctors w m := by
  unfold getattr_step
  rw [hc]
  simp [ht]

/-!
Claim theorems.
-/

/-- Claim C1: dispatch is a lazy get-or-create singleton per mode.
Constructing a DelegatedBySiloMode invokes no factory.  For a dispatcher
whose registered factories produce truthy instances, the first call routed
to mode A invokes the factory of A exactly once (one constructed event),
caches the fresh instance, and forwards to it; every subsequent call in
mode A, from any dispatcher state still caching that instance, forwards to
the reference-identical instance with no state change and no further
construction; a call routed to a second mode B constructs a distinct
instance through the factory of B, caches it under B, and leaves the
cached instance of A untouched. -/
theorem C1_lazy_singleton_per_mode
    (ctors : Ctors) (cA cB : Nat → Bool) (A B : SiloMode)
    (hA : ctors A = some cA) (hB : ctors B = some cB) (hAB : A ≠ B)
    (htA : ∀ n, cA n = true) (htB : ∀ n, cB n = true) :
    dbsInit.2 = [] ∧ (∀ m, dbsInit.1.st m = none) ∧
    (getattr_step ctors dbsInit.1 A).handler = some ⟨0, true⟩ ∧
    (getattr_step ctors dbsInit.1 A).events =
      [Event.constructed A ⟨0, true⟩, Event.forwarded ⟨0, true⟩] ∧
    (getattr_step ctors dbsInit.1 A).world.st A = some (some ⟨0, true⟩) ∧
    (∀ w : World, dget w.st A = some ⟨0, true⟩ →
      getattr_step ctors w A = ⟨some ⟨0, true⟩, w, [Event.forwarded ⟨0, true⟩]⟩) ∧
    (getattr_step ctors (getattr_step ctors dbsInit.1 A).world B).handler =
      some ⟨1, true⟩ ∧
    (⟨1, true⟩ : Inst) ≠ (⟨0, true⟩ : Inst) ∧
    (getattr_step ctors (getattr_step ctors dbsInit.1 A).world B).events =
      [Event.constructed B ⟨1, true⟩, Event.forwarded ⟨1, true⟩] ∧
    (getattr_step ctors (getattr_step ctors dbsInit.1 A).world B).world.st B =
      some (some ⟨1, true⟩) ∧
    (getattr_step ctors (getattr_step ctors dbsInit.1 A).world B).world.st A =
      (getattr_step ctors dbsInit.1 A).world.st A := by
  have hBA : B ≠ A := fun h => hAB h.symm
  have s1 : getattr_step ctors dbsInit.1 A =
      ⟨some ⟨0, true⟩,
       ⟨updF (updF dbsInit.1.st A (some none)) A (some (some ⟨0, true⟩)), 1⟩,
       [Event.constructed A ⟨0, true⟩, Event.forwarded ⟨0, true⟩]⟩ := by
    rw [getattr_empty ctors dbsInit.1 A rfl]
    unfold construct_path
    rw [hA]
    simp [close_op, dget, dbsInit, htA 0]
  have hstA : (getattr_step ctors dbsInit.1 A).world.st A = some (some ⟨0, true⟩) := by
    rw [s1]
    simp [updF_self]
  have hgetB : dget (getattr_step ctors dbsInit.1 A).world.st B = none := by
    rw [s1]
    simp [dget, updF, hBA, dbsInit]
  have s3 : getattr_step ctors (getattr_step ctors dbsInit.1 A).world B =
      ⟨some ⟨1, true⟩,
       ⟨updF (updF (getattr_step ctors dbsInit.1 A).world.st B (some none)) B
          (some (some ⟨1, true⟩)), 2⟩,
       [Event.constructed B ⟨1, true⟩, Event.forwarded ⟨1, true⟩]⟩ := by
    rw [getattr_empty ctors _ B hgetB]
    unfold construct_path
    rw [hB]
    have hctr : (getattr_step ctors dbsInit.1 A).world.ctr = 1 := by rw [s1]
    simp [close_op, hgetB, hctr, htB 1]
  refine ⟨rfl, fun m => rfl, ?_, ?_, hstA, ?_, ?_, by decide, ?_, ?_, ?_⟩
  · rw [s1]
  · rw [s1]
  · intro w hw
    exact getattr_cached ctors w A ⟨0, true⟩ hw rfl
  · rw [s3]
  · rw [s3]
  · rw [s3]
    simp [updF_self]
  · rw [s3]
    simp [updF, hAB]

/-- A concrete constructor mapping with factories for the monolith and
region modes and none for the control mode. -/
def ctorsW : Ctors := fun m =>
  match m with
  | SiloMode.MONOLITH => some (fun _ => true)
  | SiloMode.REGION => some (fun _ => true)
  | SiloMode.CONTROL => none

theorem C1_lazy_singleton_per_mode_witness :
    (getattr_step ctorsW dbsInit.1 SiloMode.MONOLITH).handler = some ⟨0, true⟩ ∧
    (getattr_step ctorsW (getattr_step ctorsW dbsInit.1 SiloMode.MONOLITH).world
        SiloMode.REGION).handler = some ⟨1, true⟩ := by
  have h := C1_lazy_singleton_per_mode ctorsW (fun _ => true) (fun _ => true)
    SiloMode.MONOLITH SiloMode.REGION rfl rfl (by decide)
    (fun _ => rfl) (fun _ => rfl)
  exact ⟨h.2.2.1, h.2.2.2.2.2.2.1⟩

/-- Claim C2: when the current mode has neither a cached singleton nor an
override (its slot reads as Python None) and no registered constructor,
any intercepted call raises the distinct KeyError, the dispatcher state is
returned unchanged with the very same singleton dict, no entry is added
and no close is invoked (the event trace is exactly the error). -/
theorem C2_no_implementation_fails_fast
    (ctors : Ctors) (w : World) (m : SiloMode)
    (hs : dget w.st m = none) (hc : ctors m = none) :
    getattr_step ctors w m = ⟨none, w, [Event.keyError]⟩ := by
  rw [getattr_empty ctors w m hs]
  unfold construct_path
  rw [hc]

theorem C2_no_implementation_fails_fast_witness :
    getattr_step (fun _ => none) dbsInit.1 SiloMode.CONTROL =
      ⟨none, dbsInit.1, [Event.keyError]⟩ :=
  C2_no_implementation_fails_fast (fun _ => none) dbsInit.1 SiloMode.CONTROL rfl rfl

/-- Claim C3: scoped replacement shadows without destroying.  With a
truthy singleton orig cached for mode A, entering with_replacement with a
truthy stub saves orig as the previous value and installs the stub without
closing anything (entry returns no close invocations by construction);
from any state of the scope still holding the stub, every call is
forwarded to the stub, not to orig, with no state change; the exit code,
which runs in a finally block and therefore on every exit path including
an exception in the body, closes only the stub, restores the
reference-identical orig into the slot, and never invokes the close method
of orig; afterwards calls are forwarded to orig again without any
reconstruction. -/
theorem C3_override_shadows_singleton
    (ctors : Ctors) (w : World) (A : SiloMode) (orig stub : Inst)
    (hc : dget w.st A = some orig) (hto : orig.truthy = true)
    (hts : stub.truthy = true) (hne : orig ≠ stub) :
    (with_replacement_enter w (some stub) A).2 = some orig ∧
    (with_replacement_enter w (some stub) A).1.st A = some (some stub) ∧
    (∀ w2 : World, dget w2.st A = some stub →
      getattr_step ctors w2 A = ⟨some stub, w2, [Event.forwarded stub]⟩ ∧
      (getattr_step ctors w2 A).handler ≠ some orig) ∧
    (∀ w2 : World, dget w2.st A = some stub →
      (with_replacement_exit w2 (some orig) A).1.st A = some (some orig) ∧
      (with_replacement_exit w2 (some orig) A).2 = [stub] ∧
      orig ∉ (with_replacement_exit w2 (some orig) A).2) ∧
    (∀ w3 : World, dget w3.st A = some orig →
      getattr_step ctors w3 A = ⟨some orig, w3, [Event.forwarded orig]⟩) := by
  refine ⟨hc, by simp [with_replacement_enter, updF_self], ?_, ?_, ?_⟩
  · intro w2 hw2
    have h := getattr_cached ctors w2 A stub hw2 hts
    refine ⟨h, ?_⟩
    rw [h]
    simp
    exact fun h2 => hne h2.symm
  · intro w2 hw2
    refine ⟨by simp [with_replacement_exit, updF_self], ?_, ?_⟩
    · simp [with_replacement_exit, close_op, hw2, hts]
    · simp [with_replacement_exit, close_op, hw2, hts]
      exact hne
  · intro w3 hw3
    exact getattr_cached ctors w3 A orig hw3 hto

/-- A concrete dispatcher state whose control-mode slot caches the truthy
instance with identity zero. -/
def wLive : World :=
  ⟨fun m => if m = SiloMode.CONTROL then some (some ⟨0, true⟩) else none, 1⟩

/-- A concrete state holding a stub override in the control-mode slot. -/
def wStub : World :=
  ⟨fun m => if m = SiloMode.CONTROL then some (some ⟨5, true⟩) else none, 1⟩

theorem C3_override_shadows_singleton_witness :
    (with_replacement_enter wLive (some ⟨5, true⟩) SiloMode.CONTROL).2 =
      some ⟨0, true⟩ ∧
    (with_replacement_exit wStub (some ⟨0, true⟩) SiloMode.CONTROL).1.st
      SiloMode.CONTROL = some (some ⟨0, true⟩) ∧
    (with_replacement_exit wStub (some ⟨0, true⟩) SiloMode.CONTROL).2 =
      [⟨5, true⟩] := by
  have h := C3_override_shadows_singleton ctorsW wLive SiloMode.CONTROL
    ⟨0, true⟩ ⟨5, true⟩ rfl rfl rfl (by decide)
  have h4 := h.2.2.2.1 wStub rfl
  exact ⟨h.1, h4.1, h4.2.1⟩

/-- Claim C4 counterexample: with the truthy singleton of identity zero
live in the control-mode slot, a whole with_replacement scope (entry, an
empty body, exit) installs the stub over the slot and yet invokes the
close method of that singleton zero times, not exactly once; the closes
the scope does perform hit only the stub.  This refutes the claim that
with_replacement closes a live singleton before overwriting its slot. -/
theorem C4_replacement_closes_counterexample :
    (with_replacement_enter wLive (some ⟨5, true⟩) SiloMode.CONTROL).1.st
      SiloMode.CONTROL = some (some ⟨5, true⟩) ∧
    List.count ⟨0, true⟩
      (with_replacement_run wLive (some ⟨5, true⟩) SiloMode.CONTROL
        (fun w => (w, []))).2 = 0 ∧
    ¬ List.count ⟨0, true⟩
      (with_replacement_run wLive (some ⟨5, true⟩) SiloMode.CONTROL
        (fun w => (w, []))).2 = 1 := by
  refine ⟨?_, ?_, ?_⟩ <;>
    simp [with_replacement_run, with_replacement_enter, with_replacement_exit,
      close_op, dget, updF, wLive, List.count]

/-- Claim C4 as amended: only the close operation closes a live singleton.
Calling close on a mode holding a live truthy singleton invokes the close
method of that singleton exactly once, with the slot already cleared in
the resulting state; with_replacement never closes the prior singleton:
installation closes nothing and merely saves and overwrites the slot, and
scope exit closes the value occupying the slot at exit time (the override
installed for the scope), not the prior singleton. -/
theorem C4_replacement_closes_amended
    (w : World) (A : SiloMode) (s v : Inst)
    (hc : dget w.st A = some s) (ht : s.truthy = true)
    (htv : v.truthy = true) (hne : s ≠ v) :
    (close_op w (some A)).2 = [s] ∧
    (close_op w (some A)).1.st A = some none ∧
    (with_replacement_enter w (some v) A).1.st A = some (some v) ∧
    (with_replacement_enter w (some v) A).2 = some s ∧
    (with_replacement_run w (some v) A (fun x => (x, []))).2 = [v] ∧
    s ∉ (with_replacement_run w (some v) A (fun x => (x, []))).2 := by
  refine ⟨?_, ?_, ?_, hc, ?_, ?_⟩
  · simp [close_op, hc, ht]
  · simp [close_op, updF_self]
  · simp [with_replacement_enter, updF_self]
  · simp [with_replacement_run, with_replacement_enter, with_replacement_exit,
      close_op, dget, updF_self, htv]
  · simp [with_replacement_run, with_replacement_enter, with_replacement_exit,
      close_op, dget, updF_self, htv]
    exact hne

theorem C4_replacement_closes_amended_witness :
    (close_op wLive (some SiloMode.CONTROL)).2 = [⟨0, true⟩] ∧
    (with_replacement_run wLive (some ⟨5, true⟩) SiloMode.CONTROL
      (fun x => (x, []))).2 = [⟨5, true⟩] := by
  have h := C4_replacement_closes_amended wLive SiloMode.CONTROL
    ⟨0, true⟩ ⟨5, true⟩ rfl rfl rfl (by decide)
  exact ⟨h.1, h.2.2.2.2.1⟩

/-- A constructor mapping with a factory registered for the control mode
only. -/
def ctors5 : Ctors := fun m =>
  match m with
  | SiloMode.CONTROL => some (fun _ => true)
  | _ => none

/-- The dispatcher state right after installing a no-service override for
the control mode on a fresh dispatcher. -/
def w5 : World := (with_replacement_enter dbsInit.1 none SiloMode.CONTROL).1

/-- Claim C5 counterexample: the control mode has a registered constructor
and a no-service override installed via with_replacement, yet a call in
that mode does not fail fast: the slot holding Python None is treated as
empty by the walrus-truthiness test, the call falls back to the registered
constructor, a fresh instance is constructed, cached and handles the call,
and no KeyError is raised.  This refutes the claim that an absent override
forces the no-implementation error when a constructor exists. -/
theorem C5_absent_override_counterexample :
    (getattr_step ctors5 w5 SiloMode.CONTROL).handler = some ⟨0, true⟩ ∧
    Event.keyError ∉ (getattr_step ctors5 w5 SiloMode.CONTROL).events ∧
    (getattr_step ctors5 w5 SiloMode.CONTROL).world.st SiloMode.CONTROL =
      some (some ⟨0, true⟩) := by
  refine ⟨?_, ?_, ?_⟩ <;>
    simp [getattr_step, construct_path, close_op, dget, updF, w5,
      with_replacement_enter, dbsInit, ctors5]

/-- Claim C5 as amended: installing a no-service override via
with_replacement forces dispatch in that mode to fail fast with the
no-implementation KeyError only when no constructor is registered for the
mode; when a constructor is registered, a call during the scope falls back
to it, constructing and caching a fresh instance instead of raising. -/
theorem C5_absent_override_amended
    (ctors : Ctors) (w : World) (m : SiloMode) :
    (ctors m = none →
      getattr_step ctors (with_replacement_enter w none m).1 m =
        ⟨none, (with_replacement_enter w none m).1, [Event.keyError]⟩) ∧
    (∀ c : Nat → Bool, ctors m = some c →
      (getattr_step ctors (with_replacement_enter w none m).1 m).handler =
        some ⟨w.ctr, c w.ctr⟩ ∧
      (getattr_step ctors (with_replacement_enter w none m).1 m).world.st m =
        some (some ⟨w.ctr, c w.ctr⟩) ∧
      Event.keyError ∉
        (getattr_step ctors (with_replacement_enter w none m).1 m).events) := by
  have hget : dget (with_replacement_enter w none m).1.st m = none := by
    simp [with_replacement_enter, dget, updF_self]
  constructor
  · intro hc
    rw [getattr_empty ctors _ m hget]
    unfold construct_path
    rw [hc]
  · intro c hc
    rw [getattr_empty ctors _ m hget]
    unfold construct_path
    rw [hc]
    refine ⟨rfl, ?_, ?_⟩
    · simp [close_op, hget, with_replacement_enter, updF_self]
    · simp [close_op, hget]

theorem C5_absent_override_amended_witness :
    (getattr_step ctors5 (with_replacement_enter dbsInit.1 none
        SiloMode.CONTROL).1 SiloMode.CONTROL).handler = some ⟨0, true⟩ ∧
    getattr_step ctors5 (with_replacement_enter dbsInit.1 none
        SiloMode.REGION).1 SiloMode.REGION =
      ⟨none, (with_replacement_enter dbsInit.1 none SiloMode.REGION).1,
       [Event.keyError]⟩ := by
  have h1 := (C5_absent_override_amended ctors5 dbsInit.1 SiloMode.CONTROL).2
    (fun _ => true) rfl
  have h2 := (C5_absent_override_amended ctors5 dbsInit.1 SiloMode.REGION).1 rfl
  exact ⟨h1.1, h2⟩

/-- Claim C6: the synthesized stub wrapper is a mode round-trip.  For any
target mode, ambient scoped-mode stack, backing method, optional
authentication-context argument and callback registration, the wrapper
call (a) hands the backing method exactly the target mode as the current
mode, (b) restores the ambient mode stack and the applied-context stack to
their prior values after the call, including when the backing method
returns an error, since the scopes unwind in a finally fashion, (c)
returns the backing outcome, result or error, unchanged, computed from the
target mode and the effective authentication context, and independent of
whether the observability callback is registered; and the close method of
a synthesized stub forwards to the close method of the backing instance. -/
theorem C6_stub_mode_round_trip
    (target : SiloMode) (hasCb : Bool)
    (backing : SiloMode → AuthenticationContext → Except Nat Nat)
    (argAuth : Option AuthenticationContext) (methodName : String)
    (ms : ModeStack) (as : List AuthenticationContext)
    (log : List String) (b : Inst) :
    (stub_method_call target hasCb backing argAuth methodName
      ⟨ms, as, log⟩).2.2 = target ∧
    (stub_method_call target hasCb backing argAuth methodName
      ⟨ms, as, log⟩).2.1.modes = ms ∧
    (stub_method_call target hasCb backing argAuth methodName
      ⟨ms, as, log⟩).2.1.auths = as ∧
    (stub_method_call target hasCb backing argAuth methodName
      ⟨ms, as, log⟩).1 = backing target (argAuth.getD defaultAuth) ∧
    (stub_method_call target true backing argAuth methodName
      ⟨ms, as, log⟩).1 =
      (stub_method_call target false backing argAuth methodName
        ⟨ms, as, log⟩).1 ∧
    stub_close ⟨b⟩ = [Event.closedEv b] := by
  cases hasCb <;>
    simp [stub_method_call, stub_close, get_current_mode, enter_scoped_mode,
      exit_scoped_mode, exit_silo_context]

/-- Claim C7: teardown cannot be left inconsistent by a raising close.
The new dispatcher state returned by the close operation is computed in
full before any backing close method runs (close_op returns the updated
world alongside the list of instances whose close is invoked afterwards,
mirroring the source, which mutates the dict under the lock and only then
calls close on the collected instances); consequently, for a mode whose
slot holds the instance s: close on that mode leaves the slot cleared to
Python None with the counter intact, and a subsequent dispatch in that
mode never reaches s again, whether a constructor is registered (a fresh
instance with a new identity handles the call) or not (the KeyError is
raised); close with no mode clears every slot.  All of this holds no
matter what the close method of s does, since it runs after the state is
fixed. -/
theorem C7_close_clears_before_closing
    (ctors : Ctors) (w : World) (m : SiloMode) (s : Inst)
    (hc : dget w.st m = some s) (hid : s.id < w.ctr) :
    (close_op w (some m)).1.st m = some none ∧
    (close_op w (some m)).1.ctr = w.ctr ∧
    (s.truthy = true → (close_op w (some m)).2 = [s]) ∧
    (∀ c : Nat → Bool, ctors m = some c →
      (getattr_step ctors (close_op w (some m)).1 m).handler =
        some ⟨w.ctr, c w.ctr⟩ ∧
      (getattr_step ctors (close_op w (some m)).1 m).handler ≠ some s) ∧
    (ctors m = none →
      (getattr_step ctors (close_op w (some m)).1 m).handler = none) ∧
    (∀ m2, (close_op w none).1.st m2 = none) := by
  have hget : dget (close_op w (some m)).1.st m = none := by
    simp [close_op, dget, updF_self]
  have hctr : (close_op w (some m)).1.ctr = w.ctr := rfl
  refine ⟨by simp [close_op, updF_self], rfl, ?_, ?_, ?_, fun m2 => rfl⟩
  · intro ht
    simp [close_op, hc, ht]
  · intro c hcon
    rw [getattr_empty ctors _ m hget]
    unfold construct_path
    rw [hcon]
    refine ⟨rfl, ?_⟩
    simp [close_op]
    intro h
    exact absurd (congrArg Inst.id h) (by simp; omega)
  · intro hcon
    rw [getattr_empty ctors _ m hget]
    unfold construct_path
    rw [hcon]

theorem C7_close_clears_before_closing_witness :
    (close_op wLive (some SiloMode.CONTROL)).1.st SiloMode.CONTROL =
      some none ∧
    (getattr_step ctorsW (close_op wLive (some SiloMode.CONTROL)).1
      SiloMode.CONTROL).handler = none := by
  have h := C7_close_clears_before_closing ctorsW wLive SiloMode.CONTROL
    ⟨0, true⟩ rfl (by decide)
  exact ⟨h.1, h.2.2.2.2.1 rfl⟩

/-- Claim C8: close is idempotent and safe on empty slots.  Calling close
on a mode twice in a row leaves the singleton dict of the first call
unchanged (the slot already holds Python None, so the second write is the
identity on the dict and the counter is untouched) and the second call
invokes no close method at all; calling close on a mode never used, whose
key is absent, invokes no close method either and raises no error (the
operation is total); and across the two consecutive calls every instance
has its close method invoked at most once. -/
theorem C8_idempotent_close
    (w : World) (m : SiloMode) :
    (close_op (close_op w (some m)).1 (some m)).2 = [] ∧
    (close_op (close_op w (some m)).1 (some m)).1.st =
      (close_op w (some m)).1.st ∧
    (close_op (close_op w (some m)).1 (some m)).1.ctr =
      (close_op w (some m)).1.ctr ∧
    (w.st m = none → (close_op w (some m)).2 = []) ∧
    (∀ i : Inst,
      List.count i ((close_op w (some m)).2 ++
        (close_op (close_op w (some m)).1 (some m)).2) ≤ 1) := by
  have hget : dget (close_op w (some m)).1.st m = none := by
    simp [close_op, dget, updF_self]
  have h2 : (close_op (close_op w (some m)).1 (some m)).2 = [] := by
    simp [close_op, dget, updF_self]
  refine ⟨h2, ?_, rfl, ?_, ?_⟩
  · funext x
    by_cases hx : x = m <;> simp [close_op, updF, hx]
  · intro hempty
    simp [close_op, dget, hempty]
  · intro i
    rw [h2]
    simp
    rcases hcase : dget w.st m with _ | s
    · simp [close_op, hcase]
    · by_cases ht : s.truthy <;>
        simp [close_op, hcase, ht, List.count_singleton]
      split <;> simp

theorem C8_idempotent_close_witness :
    (close_op (close_op wLive (some SiloMode.CONTROL)).1
      (some SiloMode.CONTROL)).2 = [] ∧
    (close_op wLive (some SiloMode.REGION)).2 = [] ∧
    List.count ⟨0, true⟩ ((close_op wLive (some SiloMode.CONTROL)).2 ++
      (close_op (close_op wLive (some SiloMode.CONTROL)).1
        (some SiloMode.CONTROL)).2) ≤ 1 := by
  have h := C8_idempotent_close wLive SiloMode.CONTROL
  have hr := C8_idempotent_close wLive SiloMode.REGION
  exact ⟨h.1, hr.2.2.2.1 rfl, h.2.2.2.2 ⟨0, true⟩⟩

/-- Claim C9: stub synthesis covers exactly the abstract capability set of
the base class.  For every concrete backing class and target mode, the
synthesized stub class derives from the first parent of the concrete
class, which is the abstract base expressing the contract, and its method
dict is populated exactly on the abstract capability set of that base
class together with the constructor and close: a name has an entry iff it
is an abstract method of the base class or one of close and the
constructor; every abstract operation other than those two gets the
forwarding wrapper for the target mode; close gets the forwarder to the
backing close and the constructor stores the single backing instance; and
in particular every abstract operation of the base class is provided, so
the stub satisfies the same abstract contract as the base class of the
backing implementation. -/
theorem C9_stub_covers_abstract_contract
    (base : ConcreteClass) (target : SiloMode) :
    (CreateStubFromBase base target).parentCls = base.firstBase ∧
    (CreateStubFromBase base target).stubName =
      "Stub" ++ base.firstBase.clsName ∧
    (∀ n : String, ((CreateStubFromBase base target).methodsMap n).isSome ↔
      (n ∈ abstractMethods base.firstBase ∨ n = "close" ∨ n = "__init__")) ∧
    (∀ n : String, n ∈ abstractMethods base.firstBase → n ≠ "close" →
      n ≠ "__init__" →
      (CreateStubFromBase base target).methodsMap n =
        some (StubMethod.wrapperFor n target)) ∧
    (CreateStubFromBase base target).methodsMap "close" =
      some StubMethod.closeForward ∧
    (CreateStubFromBase base target).methodsMap "__init__" =
      some StubMethod.initBacking ∧
    (∀ n : String, n ∈ abstractMethods base.firstBase →
      ((CreateStubFromBase base target).methodsMap n).isSome) := by
  refine ⟨rfl, rfl, ?_, ?_, rfl, rfl, ?_⟩
  · intro n
    by_cases h1 : n = "__init__"
    · simp [CreateStubFromBase, h1]
    · by_cases h2 : n = "close"
      · simp [CreateStubFromBase, h1, h2]
      · by_cases h3 : n ∈ abstractMethods base.firstBase <;>
          simp [CreateStubFromBase, h1, h2, h3]
  · intro n hmem h2 h1
    simp [CreateStubFromBase, h1, h2, hmem]
  · intro n hmem
    by_cases h1 : n = "__init__"
    · simp [CreateStubFromBase, h1]
    · by_cases h2 : n = "close" <;> simp [CreateStubFromBase, h1, h2, hmem]

/-- The introspection surface of a small abstract service class with two
abstract operations, one of them the mandatory close. -/
def demoCls : ClsInfo :=
  ⟨"Service", ["fetch", "close"], fun n => n = "fetch" || n = "close"⟩

theorem C9_stub_covers_abstract_contract_witness :
    (CreateStubFromBase ⟨demoCls⟩ SiloMode.REGION).methodsMap "fetch" =
      some (StubMethod.wrapperFor "fetch" SiloMode.REGION) ∧
    (CreateStubFromBase ⟨demoCls⟩ SiloMode.REGION).methodsMap "close" =
      some StubMethod.closeForward := by
  have h := C9_stub_covers_abstract_contract ⟨demoCls⟩ SiloMode.REGION
  refine ⟨h.2.2.2.1 "fetch" ?_ (by decide) (by decide), h.2.2.2.2.1⟩
  simp [demoCls, abstractMethods]

/-- Claim C10: presence of a cached instance is tested by truthiness, not
by dict membership.  When the cached entry for the current mode is an
instance i that evaluates as boolean false, dispatch with a registered
constructor treats the slot as empty: it constructs a fresh instance with
a new identity through the constructor, caches it over the falsy entry and
forwards to it rather than to i, and the defensive close inside that path
does not invoke the close method of i (no close event for i appears);
likewise close on that mode clears the slot to Python None but invokes no
close method at all, so the falsy instance is dropped unclosed.  The
singleton-per-mode and close-before-replace guarantees therefore hold
only for truthy backing instances. -/
theorem C10_truthiness_not_membership
    (ctors : Ctors) (w : World) (m : SiloMode) (i : Inst) (c : Nat → Bool)
    (hc : dget w.st m = some i) (hf : i.truthy = false)
    (hcon : ctors m = some c) (hid : i.id ≠ w.ctr) :
    (getattr_step ctors w m).handler = some ⟨w.ctr, c w.ctr⟩ ∧
    (getattr_step ctors w m).handler ≠ some i ∧
    (getattr_step ctors w m).world.st m = some (some ⟨w.ctr, c w.ctr⟩) ∧
    Event.closedEv i ∉ (getattr_step ctors w m).events ∧
    (close_op w (some m)).2 = [] ∧
    (close_op w (some m)).1.st m = some none := by
  have hstep : getattr_step ctors w m = construct_path ctors w m :=
    getattr_falsy ctors w m i hc hf
  have hclosed : (close_op w (some m)).2 = [] := by
    simp [close_op, hc, hf]
  refine ⟨?_, ?_, ?_, ?_, hclosed, by simp [close_op, updF_self]⟩
  · rw [hstep]
    unfold construct_path
    rw [hcon]
    simp [close_op]
  · rw [hstep]
    unfold construct_path
    rw [hcon]
    simp [close_op]
    intro h
    exact absurd (congrArg Inst.id h) (by simpa using fun h2 => hid h2.symm)
  · rw [hstep]
    unfold construct_path
    rw [hcon]
    simp [close_op, updF_self]
  · rw [hstep]
    unfold construct_path
    rw [hcon]
    simp [close_op, hc, hf]

/-- A dispatcher state caching a falsy instance for the control mode. -/
def wFalsy : World :=
  ⟨fun m => if m = SiloMode.CONTROL then some (some ⟨0, false⟩) else none, 1⟩

theorem C10_truthiness_not_membership_witness :
    (getattr_step ctors5 wFalsy SiloMode.CONTROL).handler = some ⟨1, true⟩ ∧
    (close_op wFalsy (some SiloMode.CONTROL)).2 = [] := by
  have h := C10_truthiness_not_membership ctors5 wFalsy SiloMode.CONTROL
    ⟨0, false⟩ (fun _ => true) rfl rfl rfl (by decide)
  exact ⟨h.1, h.2.2.2.2.1⟩
